import Mathlib

/-!
# The Pokédex viewer of `app.js`

A shallow embedding of the navigation handlers (`previousPokemon`, `nextPokemon`,
`randomPokemon`) and of the fetch-and-render cycle (`fetchPokemon`, `displayPokemon`).

Conventions of the embedding.

* The current id is an integer: it is only ever written by lines 7, 198, 214 and 234, so it
  stays far inside the range where a JavaScript Number counts exactly.
* A record's `id`, `height` and `weight` are the integers the response body carries.  The
  program sees each as a Number, `toNumber n`: `n` itself when a double holds it exactly
  (every integer below `2 ^ 53`, and the even ones, the multiples of four, ... beyond), the
  nearest double otherwise.  Printing goes through `numberToString`, the shortest digits
  that read back as the same double, in exponent notation from `10 ^ 21` on.
* `pokemon.height / 10` (and the same for the weight) and `Math.random() * totalPokemons`
  are computed in binary64 arithmetic: the exact quotient or product is rounded to the
  nearest double, ties to the even significand (`roundToF64`).
* The page is a record of the text sinks the program writes; the network is a function from
  the requested URL to what `fetch` delivers.
-/

namespace Pokedex

/-! ## Binary64 values -/

/-- A finite non-negative double, held as the exact fraction `num / den`; `den` is a power
of two. -/
structure F64 where
  num : Nat
  den : Nat
deriving DecidableEq

/-- Round the fraction `a / b` to the nearest integer, a tie going to the even one. -/
def roundTiesToEven (a b : Nat) : Nat :=
  let q := a / b
  let r := a % b
  if 2 * r < b then q
  else if b < 2 * r then q + 1
  else if q % 2 = 0 then q else q + 1

/-- Number of doublings of `a` until `a / b` reaches `2 ^ 52`, at most `fuel` of them.
Called with fuel `1074`, the exponent of the smallest subnormal step `2 ^ (-1074)`. -/
def shiftUp : Nat → Nat → Nat → Nat
  | 0, _, _ => 0
  | fuel + 1, a, b => if 2 ^ 52 * b ≤ a then 0 else shiftUp fuel (2 * a) b + 1

/-- Number of doublings of `b` until `a / b` drops below `2 ^ 53`. -/
def shiftDown : Nat → Nat → Nat → Nat
  | 0, _, _ => 0
  | fuel + 1, a, b => if a < 2 ^ 53 * b then 0 else shiftDown fuel a (2 * b) + 1

/-- The double nearest to the exact fraction `a / b` (round to nearest, ties to even).
The fraction is scaled by `2 ^ k / 2 ^ j` into `[2 ^ 52, 2 ^ 53)` (or as far up as the
subnormal step allows), rounded to an integer significand there, and scaled back.  The
exponent is not bounded above: overflow to `Infinity` needs a value beyond `1.7e308`,
which no quotient or product formed by the program reaches. -/
def roundToF64 (a b : Nat) : F64 :=
  let k := shiftUp 1074 a b
  let j := shiftDown a (a * 2 ^ k) b
  ⟨roundTiesToEven (a * 2 ^ k) (b * 2 ^ j) * 2 ^ j, 2 ^ k⟩

/-- The function `Math.floor` on a non-negative double (the result is an integer). -/
def F64.floor (x : F64) : Nat := x.num / x.den

/-- The Number that holds the integer `n`: the double nearest to `n`, which is an integer
again, and is `n` itself whenever a double holds `n` exactly. -/
def toNumber (n : Nat) : Nat := (roundToF64 n 1).floor

/-- The JavaScript quotient `h / d` of the Number holding `h` by the small integer `d`. -/
def F64.ofQuotient (h d : Nat) : F64 := roundToF64 (toNumber h) d

/-- A value `Math.random()` may return: the double `mant / 2 ^ exp`. -/
structure Draw where
  mant : Nat
  exp : Nat
deriving DecidableEq

/-- The pairs that denote a double `r` with `0 ≤ r < 1`: a significand of at most 53 bits
over `2 ^ exp` with `53 ≤ exp ≤ 1074`.  Every double in `[0, 1)` has this form (normal ones
with `2 ^ 52 ≤ mant`, subnormal ones with `exp = 1074`). -/
def Draw.valid (r : Draw) : Prop := r.mant < 2 ^ 53 ∧ 53 ≤ r.exp ∧ r.exp ≤ 1074

instance (r : Draw) : Decidable r.valid := by
  unfold Draw.valid
  infer_instance

/-- The JavaScript product `r * n` of a draw and an integer-valued Number. -/
def Draw.mul (r : Draw) (n : Nat) : F64 := roundToF64 (r.mant * n) (2 ^ r.exp)

/-! ## Navigation state -/

/-- Line 11: `const totalPokemons = 151`. -/
def totalPokemons : Nat := 151

/-- The navigation state: the global `currentPokemonId` and the ids handed to
`fetchPokemon` so far, oldest first (each call starts one retrieval and is not awaited). -/
structure Nav where
  currentPokemonId : Int
  requests : List Int
deriving DecidableEq

/-- The state once the script has loaded: line 7 `let currentPokemonId = 1` and line 246
`fetchPokemon(currentPokemonId)`. -/
def Nav.initial : Nav := ⟨1, [1]⟩

/-- Lines 192-203. -/
def previousPokemon (s : Nav) : Nav :=
  if s.currentPokemonId > 1 then
    let currentPokemonId := s.currentPokemonId - 1
    { currentPokemonId := currentPokemonId, requests := s.requests ++ [currentPokemonId] }
  else s

/-- Lines 209-219. -/
def nextPokemon (s : Nav) : Nav :=
  if s.currentPokemonId < totalPokemons then
    let currentPokemonId := s.currentPokemonId + 1
    { currentPokemonId := currentPokemonId, requests := s.requests ++ [currentPokemonId] }
  else s

/-- Line 231: `Math.floor(Math.random() * totalPokemons) + 1`, for the draw `r`.  The
floor is a small integer, so the final addition is exact. -/
def randomId (r : Draw) : Nat := (r.mul totalPokemons).floor + 1

/-- Lines 226-238, with `r` the value returned by `Math.random()`. -/
def randomPokemon (r : Draw) (s : Nav) : Nav :=
  { currentPokemonId := randomId r, requests := s.requests ++ [(randomId r : Int)] }

/-- A click on one of the three buttons; a click on the random button comes with the
value `Math.random()` returns for it. -/
inductive Action where
  | previous
  | next
  | random (r : Draw)

/-- The draws of an action are doubles in `[0, 1)`. -/
def Action.valid : Action → Prop
  | .random r => r.valid
  | _ => True

instance (a : Action) : Decidable a.valid := by
  cases a <;> (unfold Action.valid; infer_instance)

/-- The handler lines 60-66 bind to each button. -/
def Action.run : Action → Nav → Nav
  | .previous, s => previousPokemon s
  | .next, s => nextPokemon s
  | .random r, s => randomPokemon r s

/-- The state after a sequence of clicks, first click first. -/
def runAll (actions : List Action) (s : Nav) : Nav :=
  actions.foldl (fun s a => a.run s) s

/-! ## Text helpers (the string built-ins the program calls) -/

/-- Whether the decimal `s * 10 ^ e`, with `s` positive, reads back as the double `x`. -/
def roundTrips (x s e : Nat) : Bool := s != 0 && toNumber (s * 10 ^ e) == x

/-- The largest number of trailing zeros a decimal that reads back as `x` can have, counted
up from `e`.  If some decimal `s * 10 ^ e` reads back as `x`, so does the multiple of
`10 ^ e` next below or next above `x`; and a decimal with `e + 1` trailing zeros is also
one with `e`, so the count stops at the first failure. -/
def trailingZeros (x : Nat) : Nat → Nat → Nat
  | 0, e => e
  | fuel + 1, e =>
    if roundTrips x (x / 10 ^ (e + 1)) (e + 1) || roundTrips x (x / 10 ^ (e + 1) + 1) (e + 1)
    then trailingZeros x fuel (e + 1)
    else e

/-- The pair `(s, e)` of `Number::toString` for an integer-valued double `x`: the decimal
`s * 10 ^ e` reads back as `x`, `s` has as few digits as possible, and among those `s` the
one nearest to `x` is taken (the even one on a tie). -/
def shortestDecimal (x : Nat) : Nat × Nat :=
  let e := trailingZeros x x 0
  let lo := x / 10 ^ e
  let hi := lo + 1
  let s :=
    if roundTrips x lo e then
      if roundTrips x hi e then
        if x - lo * 10 ^ e < hi * 10 ^ e - x then lo
        else if hi * 10 ^ e - x < x - lo * 10 ^ e then hi
        else if lo % 2 = 0 then lo else hi
      else lo
    else hi
  (s, e)

/-- The built-in `Number.prototype.toString()` (radix 10) on the Number holding the integer
`n`.  With `s` of `k` digits and `e` trailing zeros: up to 21 digits in all the digits of
`s` followed by the zeros, beyond that exponent notation (`1e+21`, `1.5e+21`). -/
def numberToString (n : Nat) : String :=
  let x := toNumber n
  if x = 0 then "0"
  else
    let (s, e) := shortestDecimal x
    let digits := (Nat.repr s).data
    let k := digits.length
    if k + e ≤ 21 then ⟨digits ++ List.replicate e '0'⟩
    else if k = 1 then ⟨digits ++ 'e' :: '+' :: (Nat.repr (k + e - 1)).data⟩
    else ⟨digits.take 1 ++ '.' :: digits.drop 1 ++ 'e' :: '+' :: (Nat.repr (k + e - 1)).data⟩

/-- The built-in `Number.prototype.toFixed(f)` on a non-negative double `x`.  From `10 ^ 21`
on (where every double is an integer) the result is that of `toString`.  Below, with `n`
the integer for which `n / 10 ^ f - x` is closest to zero (the larger one on a tie, so
`n = ⌊x * 10 ^ f + 1/2⌋`): the digits of `n`, left-padded with zeros to `f + 1`
characters, with a point before the last `f` of them. -/
def toFixed (x : F64) (f : Nat) : String :=
  if 10 ^ 21 * x.den ≤ x.num then numberToString (x.num / x.den)
  else
    let n := (2 * x.num * 10 ^ f + x.den) / (2 * x.den)
    let m := (Nat.repr n).data
    if f = 0 then ⟨m⟩
    else
      let m := if m.length ≤ f then List.replicate (f + 1 - m.length) '0' ++ m else m
      let k := m.length
      ⟨m.take (k - f) ++ '.' :: m.drop (k - f)⟩

/-- The built-in `String.prototype.padStart(targetLength, padString)`: a string already
long enough (or an empty filler) comes back as it is, nothing is ever cut from it. -/
def padStart (s : String) (targetLength : Nat) (padString : String) : String :=
  if targetLength ≤ s.length ∨ padString = "" then s
  else
    let fillLen := targetLength - s.length
    ⟨((List.replicate fillLen padString.data).flatten).take fillLen⟩ ++ s

/-- Replace the first occurrence of `pat` in `s` by `rep`. -/
def replaceFirst (pat rep : List Char) : List Char → List Char
  | [] => if pat = [] then rep else []
  | c :: cs =>
    if pat.isPrefixOf (c :: cs) then rep ++ (c :: cs).drop pat.length
    else c :: replaceFirst pat rep cs

/-- The built-in `String.prototype.replace(searchValue, replaceValue)` with a string (not a
regular expression) as pattern and a replacement without `$`: only the first occurrence
is replaced. -/
def replace (s searchValue replaceValue : String) : String :=
  ⟨replaceFirst searchValue.data replaceValue.data s.data⟩

/-! ## The record and the page -/

/-- The two image references of `pokemon.sprites` read by the image error handler:
`other['official-artwork'].front_default` and `front_default` (`none` is `null`). -/
structure Sprites where
  officialArtwork : Option String
  frontDefault : Option String
deriving DecidableEq

/-- The parsed response body, typed as the catalogue documents it.  The three numbers are
the integers the body carries (see `toNumber`).  The two sequences are
optional (`none`: the property is absent): the code tests `pokemon.abilities` for it, and
`pokemon.types.map` raises a `TypeError` on it.  Each entry of `types` stands for its
`type.name`, each entry of `abilities` for its `ability.name`. -/
structure Pokemon where
  id : Nat
  name : String
  types : Option (List String)
  height : Nat
  weight : Nat
  abilities : Option (List String)
  sprites : Sprites
deriving DecidableEq

/-- The sinks the program writes (lines 25-52), and the console.  `pokemonImageOnError`
holds the sprites the installed `onerror` handler falls back to. -/
structure Page where
  pokemonImageSrc : String
  pokemonImageAlt : String
  pokemonImageOnError : Option Sprites
  pokemonName : String
  pokemonType : String
  pokemonHeight : String
  pokemonWeight : String
  pokemonId : String
  pokemonPower : String
  console : List String
deriving DecidableEq

/-- How a call ends: it returns, or it throws; either way with the page as written so far. -/
inductive Completion where
  | normal (page : Page)
  | thrown (error : String) (page : Page)
deriving DecidableEq

/-- The page a call leaves behind. -/
def Completion.page : Completion → Page
  | .normal page => page
  | .thrown _ page => page

/-- Line 125, the value the `onerror` handler assigns: `a || b` is `a` unless `a` is `null`
or the empty string. -/
def Sprites.fallback (s : Sprites) : Option String :=
  match s.officialArtwork with
  | some url => if url = "" then s.frontDefault else some url
  | none => s.frontDefault

/-- Lines 123-126, the `onerror` handler installed by `displayPokemon`, run when the image
fails to load: it assigns the fallback to `src` (`null` is written as the text `null`). -/
def imageError (page : Page) : Page :=
  match page.pokemonImageOnError with
  | none => page
  | some sprites => { page with pokemonImageSrc := sprites.fallback.getD "null" }

/-- Lines 110-186.  The animation restart (lines 131-139) only touches the style of the
image and is left out. -/
def displayPokemon (pokemon : Pokemon) (page : Page) : Completion :=
  let showdownUrl :=
    "https://raw.githubusercontent.com/PokeAPI/sprites/master/sprites/pokemon/other/showdown/"
      ++ numberToString pokemon.id ++ ".gif"
  let page := { page with pokemonImageSrc := showdownUrl }
  let page := { page with pokemonImageOnError := some pokemon.sprites }
  let page := { page with pokemonImageAlt := pokemon.name }
  let page := { page with pokemonName := pokemon.name }
  match pokemon.types with
  | none => .thrown "TypeError: pokemon.types is undefined" page
  | some typeNames =>
    let types := ", ".intercalate typeNames
    let page := { page with pokemonType := types }
    let page :=
      { page with pokemonHeight := toFixed (F64.ofQuotient pokemon.height 10) 1 ++ " m" }
    let page :=
      { page with pokemonWeight := toFixed (F64.ofQuotient pokemon.weight 10) 1 ++ " kg" }
    let page := { page with pokemonId := "#" ++ padStart (numberToString pokemon.id) 3 "0" }
    match pokemon.abilities with
    | some (mainAbility :: _) =>
      .normal { page with pokemonPower := replace mainAbility "-" " " }
    | _ => .normal { page with pokemonPower := "Desconocido" }

/-! ## The retrieval -/

/-- What `response.json()` delivers: it rejects (the body is not JSON) or resolves. -/
inductive Body where
  | unparsable
  | json (pokemon : Pokemon)
deriving DecidableEq

/-- What `fetch(url)` delivers: it rejects (no network), or resolves to a response with
a status code and a body. -/
inductive FetchResult where
  | rejected (reason : String)
  | response (status : Nat) (body : Body)
deriving DecidableEq

/-- The property `response.ok`: the status is in the range 200-299. -/
def FetchResult.ok (status : Nat) : Bool := 200 ≤ status && status ≤ 299

/-- Line 15. -/
def apiBaseUrl : String := "https://pokeapi.co/api/v2/pokemon"

/-- Lines 75-95, the `try` block. -/
def fetchPokemonTry (fetch : String → FetchResult) (id : Int) (page : Page) : Completion :=
  match fetch (apiBaseUrl ++ "/" ++ toString id) with
  | .rejected reason => .thrown reason page
  | .response status body =>
    if !FetchResult.ok status then .thrown ("Error: " ++ Nat.repr status) page
    else
      match body with
      | .unparsable => .thrown "SyntaxError" page
      | .json data => displayPokemon data page

/-- Lines 74-103: the `try` block, and the `catch` block on what it throws. -/
def fetchPokemon (fetch : String → FetchResult) (id : Int) (page : Page) : Completion :=
  match fetchPokemonTry fetch id page with
  | .normal page => .normal page
  | .thrown error page =>
    let page := { page with console := page.console ++ ["Error al obtener el Pokémon: " ++ error] }
    .normal { page with pokemonName := "Error al cargar" }

/-- Whether the retrieval fails before any rendering: no network, a non-success status, or
a body that is not JSON. -/
def FetchResult.failed : FetchResult → Bool
  | .rejected _ => true
  | .response status body => !FetchResult.ok status || body == .unparsable

/-- Read a string of digits as a decimal number. -/
def readDecimal (s : List Char) : Nat :=
  s.foldl (fun acc c => 10 * acc + (c.toNat - '0'.toNat)) 0

/-- A page with every sink still empty. -/
def Page.empty : Page := ⟨"", "", none, "", "", "", "", "", "", []⟩

/-- Record 1 of the catalogue, with the fields the program reads. -/
def bulbasaur : Pokemon :=
  { id := 1, name := "bulbasaur", types := some ["grass", "poison"], height := 7,
    weight := 69, abilities := some ["overgrow", "chlorophyll"],
    sprites := ⟨some "official-artwork/1.png", some "1.png"⟩ }

/-! ## Basic facts about the rounding -/

theorem roundTiesToEven_bounds (a b : Nat) (hb : 0 < b) :
    2 * (b * roundTiesToEven a b) ≤ 2 * a + b ∧ 2 * a ≤ 2 * (b * roundTiesToEven a b) + b := by
  have h := Nat.div_add_mod a b
  have hr := Nat.mod_lt a hb
  unfold roundTiesToEven
  simp only
  generalize a / b = q at *
  generalize a % b = r at *
  generalize hp : b * q = p at *
  split_ifs <;> simp only [Nat.mul_add, hp, Nat.mul_one] <;> omega

theorem shiftUp_lt (fuel a b : Nat) (h : 0 < shiftUp fuel a b) :
    a * 2 ^ shiftUp fuel a b < 2 ^ 53 * b := by
  induction fuel generalizing a with
  | zero => simp [shiftUp] at h
  | succ n ih =>
    unfold shiftUp at h ⊢
    split_ifs at h ⊢ with hc
    · omega
    · rcases Nat.eq_zero_or_pos (shiftUp n (2 * a) b) with h0 | hpos
      · rw [h0]
        omega
      · have := ih (2 * a) hpos
        rw [pow_succ]
        calc a * (2 ^ shiftUp n (2 * a) b * 2) = 2 * a * 2 ^ shiftUp n (2 * a) b := by ring
          _ < 2 ^ 53 * b := this

theorem shiftUp_ge_of_small (i fuel a b : Nat) (h : a * 2 ^ i < 2 ^ 52 * b) (hf : i + 1 ≤ fuel) :
    i + 1 ≤ shiftUp fuel a b := by
  induction i generalizing a fuel with
  | zero =>
    obtain ⟨n, rfl⟩ : ∃ n, fuel = n + 1 := ⟨fuel - 1, by omega⟩
    unfold shiftUp
    rw [if_neg (by omega)]
    omega
  | succ i ih =>
    obtain ⟨n, rfl⟩ : ∃ n, fuel = n + 1 := ⟨fuel - 1, by omega⟩
    have h2 : 2 * a * 2 ^ i < 2 ^ 52 * b := by
      calc 2 * a * 2 ^ i = a * 2 ^ (i + 1) := by ring
        _ < 2 ^ 52 * b := h
    have ha : a < 2 ^ 52 * b := by
      have : 1 ≤ 2 ^ (i + 1) := Nat.one_le_two_pow
      calc a = a * 1 := by ring
        _ ≤ a * 2 ^ (i + 1) := Nat.mul_le_mul_left a this
        _ < 2 ^ 52 * b := h
    unfold shiftUp
    rw [if_neg (by omega)]
    have := ih n (2 * a) h2 (by omega)
    omega

theorem shiftDown_eq_zero (fuel a b : Nat) (h : a < 2 ^ 53 * b) : shiftDown fuel a b = 0 := by
  cases fuel with
  | zero => rfl
  | succ n =>
    unfold shiftDown
    rw [if_pos h]

/-- The double written `0.1` is `0x1.999999999999ap-4`. -/
theorem ofQuotient_one_tenth : F64.ofQuotient 1 10 = ⟨0x1999999999999a, 2 ^ 56⟩ := by
  decide

/-- The double written `0.7` is `0x1.6666666666666p-1`. -/
theorem ofQuotient_seven_tenths : F64.ofQuotient 7 10 = ⟨0x16666666666666, 2 ^ 53⟩ := by
  decide

/-- The largest draw, `1 - 2 ^ (-53)`, times 151 is the double next below 151. -/
theorem mul_largest_draw :
    (Draw.mk (2 ^ 53 - 1) 53).mul 151 = ⟨151 * 2 ^ 45 - 1, 2 ^ 45⟩ := by
  decide

theorem roundToF64_of_shifted (a b : Nat) (hk : 0 < shiftUp 1074 a b) :
    roundToF64 a b
      = ⟨roundTiesToEven (a * 2 ^ shiftUp 1074 a b) b, 2 ^ shiftUp 1074 a b⟩ := by
  unfold roundToF64
  simp only [shiftDown_eq_zero _ _ _ (shiftUp_lt _ _ _ hk), pow_zero, Nat.mul_one]

theorem roundTiesToEven_one (a : Nat) : roundTiesToEven a 1 = a := by
  simp [roundTiesToEven, Nat.mod_one]

theorem le_roundTiesToEven (a b : Nat) : a / b ≤ roundTiesToEven a b := by
  unfold roundTiesToEven
  simp only
  split_ifs <;> omega

theorem shiftUp_eq_zero (fuel a b : Nat) (h : 2 ^ 52 * b ≤ a) : shiftUp fuel a b = 0 := by
  cases fuel with
  | zero => rfl
  | succ n =>
    unfold shiftUp
    rw [if_pos h]

theorem shiftDown_pos (fuel a b : Nat) (hf : 0 < fuel) (h : 2 ^ 53 * b ≤ a) :
    0 < shiftDown fuel a b := by
  obtain ⟨n, rfl⟩ : ∃ n, fuel = n + 1 := ⟨fuel - 1, by omega⟩
  unfold shiftDown
  rw [if_neg (by omega)]
  omega

theorem shiftDown_le (fuel a b : Nat) (h : 0 < shiftDown fuel a b) :
    2 ^ 52 * (b * 2 ^ shiftDown fuel a b) ≤ a := by
  induction fuel generalizing b with
  | zero => simp [shiftDown] at h
  | succ n ih =>
    unfold shiftDown at h ⊢
    split_ifs at h ⊢ with hc
    · omega
    · rcases Nat.eq_zero_or_pos (shiftDown n a (2 * b)) with h0 | hpos
      · rw [h0]
        omega
      · have := ih (2 * b) hpos
        rw [pow_succ]
        calc 2 ^ 52 * (b * (2 ^ shiftDown n a (2 * b) * 2))
            = 2 ^ 52 * (2 * b * 2 ^ shiftDown n a (2 * b)) := by ring
          _ ≤ a := this

/-- A Number holds every integer below `2 ^ 53` exactly. -/
theorem toNumber_of_lt (n : Nat) (h : n < 2 ^ 53) : toNumber n = n := by
  unfold toNumber F64.floor
  by_cases h52 : n < 2 ^ 52
  · have hk := shiftUp_ge_of_small 0 1074 n 1 (by omega) (by omega)
    rw [roundToF64_of_shifted _ _ (by omega)]
    simp only [roundTiesToEven_one]
    exact Nat.mul_div_cancel n (Nat.two_pow_pos _)
  · unfold roundToF64
    simp only [shiftUp_eq_zero 1074 n 1 (by omega), pow_zero, Nat.mul_one,
      shiftDown_eq_zero n n 1 (by omega), roundTiesToEven_one, Nat.div_one]

/-- The Number holding an integer from `2 ^ 53` on is itself at least `2 ^ 53`. -/
theorem toNumber_ge (v : Nat) (h : 2 ^ 53 ≤ v) : 2 ^ 53 ≤ toNumber v := by
  unfold toNumber F64.floor roundToF64
  simp only [shiftUp_eq_zero 1074 v 1 (by omega), pow_zero, Nat.mul_one, Nat.one_mul,
    Nat.div_one]
  have hj := shiftDown_pos v v 1 (by omega) (by omega)
  have hle := shiftDown_le v v 1 hj
  generalize shiftDown v v 1 = j at hj hle
  rw [Nat.one_mul] at hle
  have hq : 2 ^ 52 ≤ v / 2 ^ j := (Nat.le_div_iff_mul_le (Nat.two_pow_pos j)).2 hle
  have hr := le_roundTiesToEven v (2 ^ j)
  have h2 : 2 ≤ 2 ^ j := by
    calc 2 = 2 ^ 1 := by norm_num
      _ ≤ 2 ^ j := Nat.pow_le_pow_right (by norm_num) hj
  calc 2 ^ 53 = 2 ^ 52 * 2 := by norm_num
    _ ≤ roundTiesToEven v (2 ^ j) * 2 ^ j := Nat.mul_le_mul (le_trans hq hr) h2

/-- Below `2 ^ 53` a decimal reads back as `n` only if it is `n`. -/
theorem roundTrips_iff (n s e : Nat) (hn : n < 2 ^ 53) :
    roundTrips n s e = true ↔ s ≠ 0 ∧ s * 10 ^ e = n := by
  unfold roundTrips
  simp only [Bool.and_eq_true, bne_iff_ne, ne_eq, beq_iff_eq]
  constructor
  · rintro ⟨hs, hv⟩
    refine ⟨hs, ?_⟩
    by_cases hlt : s * 10 ^ e < 2 ^ 53
    · rw [toNumber_of_lt _ hlt] at hv
      exact hv
    · have := toNumber_ge (s * 10 ^ e) (by omega)
      omega
  · rintro ⟨hs, hv⟩
    refine ⟨hs, ?_⟩
    rw [hv]
    exact toNumber_of_lt n hn

theorem trailingZeros_dvd (n fuel e : Nat) (hn : n < 2 ^ 53) (h : 10 ^ e ∣ n) :
    10 ^ trailingZeros n fuel e ∣ n := by
  induction fuel generalizing e with
  | zero => exact h
  | succ f ih =>
    unfold trailingZeros
    split_ifs with hc
    · apply ih
      rw [Bool.or_eq_true, roundTrips_iff n _ _ hn, roundTrips_iff n _ _ hn] at hc
      rcases hc with ⟨_, hc⟩ | ⟨_, hc⟩
      · exact Dvd.intro_left _ hc
      · exact Dvd.intro_left _ hc
    · exact h

theorem shortestDecimal_of_lt (n : Nat) (h0 : 0 < n) (hn : n < 2 ^ 53) :
    ∃ e, shortestDecimal n = (n / 10 ^ e, e) ∧ n / 10 ^ e * 10 ^ e = n := by
  have hd := trailingZeros_dvd n n 0 hn (by simp)
  refine ⟨trailingZeros n n 0, ?_, Nat.div_mul_cancel hd⟩
  unfold shortestDecimal
  simp only
  generalize trailingZeros n n 0 = e at hd
  have hmul : n / 10 ^ e * 10 ^ e = n := Nat.div_mul_cancel hd
  have hpos : 0 < 10 ^ e := Nat.pos_pow_of_pos e (by norm_num)
  have hlo : roundTrips n (n / 10 ^ e) e = true := by
    rw [roundTrips_iff n _ _ hn]
    refine ⟨?_, hmul⟩
    intro hz
    rw [hz] at hmul
    omega
  have hhi : roundTrips n (n / 10 ^ e + 1) e = false := by
    rw [← Bool.not_eq_true, roundTrips_iff n _ _ hn]
    rintro ⟨_, hv⟩
    rw [Nat.add_mul, hmul] at hv
    omega
  rw [hlo, hhi]
  simp

/-! ## Decimal numerals -/

theorem toDigitsCore_eq (fuel n : Nat) (ds : List Char) (h : n < fuel) :
    Nat.toDigitsCore 10 fuel n ds
      = (if n = 0 then ['0'] else (Nat.digits 10 n).reverse.map Nat.digitChar) ++ ds := by
  induction fuel generalizing n ds with
  | zero => omega
  | succ f ih =>
    unfold Nat.toDigitsCore
    simp only
    by_cases hq : n / 10 = 0
    · rw [if_pos hq]
      have hlt : n < 10 := by omega
      by_cases h0 : n = 0
      · subst h0
        rfl
      · rw [if_neg h0, Nat.digits_of_lt 10 n h0 hlt, Nat.mod_eq_of_lt hlt]
        rfl
    · rw [if_neg hq]
      have h0 : n ≠ 0 := by omega
      rw [ih (n / 10) _ (by omega), if_neg hq, if_neg h0,
        Nat.digits_def' (by norm_num : 1 < 10) (by omega : 0 < n)]
      simp

theorem repr_data (n : Nat) :
    (Nat.repr n).data
      = if n = 0 then ['0'] else (Nat.digits 10 n).reverse.map Nat.digitChar := by
  have := toDigitsCore_eq (n + 1) n [] (by omega)
  simpa [Nat.repr, Nat.toDigits, List.asString] using this

theorem repr_data_lt (n : Nat) (h : n < 10) : (Nat.repr n).data = [Nat.digitChar n] := by
  rw [repr_data]
  by_cases h0 : n = 0
  · subst h0
    rfl
  · rw [if_neg h0, Nat.digits_of_lt 10 n h0 h]
    rfl

theorem repr_data_ge (n : Nat) (h : 10 ≤ n) :
    (Nat.repr n).data = (Nat.repr (n / 10)).data ++ [Nat.digitChar (n % 10)] := by
  rw [repr_data, repr_data, if_neg (by omega), if_neg (by omega),
    Nat.digits_def' (by norm_num : 1 < 10) (by omega : 0 < n)]
  simp

theorem repr_length (n : Nat) (h : 0 < n) :
    (Nat.repr n).length = (Nat.digits 10 n).length := by
  show (Nat.repr n).data.length = _
  rw [repr_data, if_neg (by omega)]
  simp

theorem digitChar_toNat (d : Nat) (h : d < 10) :
    (Nat.digitChar d).toNat - '0'.toNat = d := by
  interval_cases d <;> rfl

theorem readDecimal_append_digit (cs : List Char) (d : Nat) (h : d < 10) :
    readDecimal (cs ++ [Nat.digitChar d]) = 10 * readDecimal cs + d := by
  have hd := digitChar_toNat d h
  simp only [readDecimal, List.foldl_append, List.foldl_cons, List.foldl_nil] at hd ⊢
  rw [hd]

theorem readDecimal_repr (n : Nat) : readDecimal (Nat.repr n).data = n := by
  induction n using Nat.strong_induction_on with
  | _ n ih =>
    by_cases h : n < 10
    · rw [repr_data_lt n h]
      simpa [readDecimal] using digitChar_toNat n h
    · rw [repr_data_ge n (by omega),
        readDecimal_append_digit _ _ (Nat.mod_lt n (by norm_num)), ih (n / 10) (by omega)]
      omega

theorem readDecimal_zeros (i : Nat) (cs : List Char) :
    readDecimal (List.replicate i '0' ++ cs) = readDecimal cs := by
  induction i with
  | zero => rfl
  | succ i ih =>
    rw [List.replicate_succ, List.cons_append]
    unfold readDecimal at ih ⊢
    rw [List.foldl_cons]
    exact ih

theorem repr_data_mul_pow (s e : Nat) (hs : 0 < s) :
    (Nat.repr (s * 10 ^ e)).data = (Nat.repr s).data ++ List.replicate e '0' := by
  induction e with
  | zero => simp
  | succ e ih =>
    have hpos : 0 < s * 10 ^ e := Nat.mul_pos hs (Nat.pos_pow_of_pos e (by norm_num))
    have hmul : s * 10 ^ (e + 1) = s * 10 ^ e * 10 := by ring
    rw [repr_data_ge _ (by omega), hmul, Nat.mul_div_cancel _ (by norm_num : 0 < 10),
      Nat.mul_mod_left, ih, List.append_assoc]
    congr 1
    rw [List.replicate_succ']
    rfl

/-- For an integer below `2 ^ 53` `toString` gives the decimal numeral. -/
theorem numberToString_of_lt (n : Nat) (hn : n < 2 ^ 53) : numberToString n = Nat.repr n := by
  unfold numberToString
  simp only [toNumber_of_lt n hn]
  by_cases h0 : n = 0
  · subst h0
    rfl
  · rw [if_neg h0]
    obtain ⟨e, hsd, hmul⟩ := shortestDecimal_of_lt n (by omega) hn
    rw [hsd]
    simp only
    have hs : 0 < n / 10 ^ e := by
      rcases Nat.eq_zero_or_pos (n / 10 ^ e) with hz | hp
      · rw [hz] at hmul
        omega
      · exact hp
    have hdata := repr_data_mul_pow (n / 10 ^ e) e hs
    rw [hmul] at hdata
    have hlen : (Nat.repr n).length ≤ 16 :=
      Nat.repr_length n 16 (by norm_num) (by omega)
    have hlen2 : (Nat.repr (n / 10 ^ e)).data.length + e ≤ 21 := by
      have : (Nat.repr n).data.length ≤ 16 := hlen
      rw [hdata, List.length_append, List.length_replicate] at this
      omega
    rw [if_pos hlen2]
    apply String.ext
    exact hdata.symm

/-- Beyond `2 ^ 53` `toString` prints the shortest digits that read back as the same
double: `2 ^ 60 = 1152921504606846976` and `2 ^ 64 = 18446744073709551616` end in zeros,
and from `10 ^ 21` on the notation is exponential. -/
theorem numberToString_large :
    numberToString (2 ^ 60) = "1152921504606847000" ∧
      numberToString (2 ^ 64) = "18446744073709552000" ∧
      numberToString (15 * 10 ^ 20) = "1.5e+21" ∧
      numberToString (2 ^ 70) = "1.1805916207174113e+21" := by
  decide

/-! ## The quotient by ten, to one decimal place -/

theorem toFixed_data (x : F64) (hx : x.num < 10 ^ 21 * x.den) :
    (toFixed x 1).data
      = if (2 * x.num * 10 + x.den) / (2 * x.den) < 10 then
          ['0', '.', Nat.digitChar ((2 * x.num * 10 + x.den) / (2 * x.den))]
        else
          (Nat.repr ((2 * x.num * 10 + x.den) / (2 * x.den) / 10)).data
            ++ ['.', Nat.digitChar ((2 * x.num * 10 + x.den) / (2 * x.den) % 10)] := by
  unfold toFixed
  rw [if_neg (by omega)]
  simp only [pow_one, one_ne_zero, if_false]
  generalize (2 * x.num * 10 + x.den) / (2 * x.den) = n
  by_cases h : n < 10
  · rw [if_pos h, repr_data_lt n h]
    rfl
  · rw [if_neg h, repr_data_ge n (by omega)]
    have hlen : ¬ ((Nat.repr (n / 10)).data ++ [Nat.digitChar (n % 10)]).length ≤ 1 := by
      have : 0 < (Nat.repr (n / 10)).data.length := by
        rw [repr_data]
        split_ifs with h0
        · simp
        · have : Nat.digits 10 (n / 10) ≠ [] := Nat.digits_ne_nil_iff_ne_zero.mpr h0
          simp [List.length_pos, this]
      simp only [List.length_append, List.length_singleton]
      omega
    rw [if_neg hlen]
    simp

/-- The quotient of an integer below `10 * 2 ^ 49` by ten: a significand `M` over at least
`2 ^ 4`, with `10 * M` within 5 of the scaled numerator. -/
theorem ofQuotient_ten_shape (h : Nat) (hh : h < 10 * 2 ^ 49) :
    ∃ M I, 1 ≤ I ∧ F64.ofQuotient h 10 = ⟨M, 16 * I⟩ ∧
      2 * (10 * M) ≤ 2 * (h * (16 * I)) + 10 ∧ 2 * (h * (16 * I)) ≤ 2 * (10 * M) + 10 := by
  have hk := shiftUp_ge_of_small 3 1074 h 10 (by omega) (by omega)
  unfold F64.ofQuotient
  rw [toNumber_of_lt h (by omega), roundToF64_of_shifted _ _ (by omega)]
  generalize shiftUp 1074 h 10 = k at hk
  obtain ⟨i, rfl⟩ : ∃ i, k = 4 + i := ⟨k - 4, by omega⟩
  have hP : (2 : Nat) ^ (4 + i) = 16 * 2 ^ i := pow_add 2 4 i
  rw [hP]
  exact ⟨_, 2 ^ i, Nat.one_le_two_pow, rfl,
    roundTiesToEven_bounds (h * (16 * 2 ^ i)) 10 (by norm_num)⟩

theorem ofQuotient_ten_rounds_back (h : Nat) (hh : h < 10 * 2 ^ 49) :
    (2 * (F64.ofQuotient h 10).num * 10 + (F64.ofQuotient h 10).den)
      / (2 * (F64.ofQuotient h 10).den) = h := by
  obtain ⟨M, I, hI, hx, b1, b2⟩ := ofQuotient_ten_shape h hh
  rw [hx]
  simp only
  apply Nat.div_eq_of_lt_le
  · have e : h * (2 * (16 * I)) = 2 * (h * (16 * I)) := by ring
    rw [e]
    generalize h * (16 * I) = t at b1 b2
    omega
  · have e : (h + 1) * (2 * (16 * I)) = 2 * (h * (16 * I)) + 32 * I := by ring
    rw [e]
    generalize h * (16 * I) = t at b1 b2
    omega

theorem ofQuotient_ten_small (h : Nat) (hh : h < 10 * 2 ^ 49) :
    (F64.ofQuotient h 10).num < 10 ^ 21 * (F64.ofQuotient h 10).den := by
  obtain ⟨M, I, hI, hx, b1, _⟩ := ofQuotient_ten_shape h hh
  rw [hx]
  simp only
  have hle : h * (16 * I) ≤ 10 * 2 ^ 49 * (16 * I) := Nat.mul_le_mul_right _ (by omega)
  generalize h * (16 * I) = t at b1 hle
  omega

theorem toFixed_ofQuotient_ten (h : Nat) (hh : h < 10 * 2 ^ 49) :
    toFixed (F64.ofQuotient h 10) 1 = Nat.repr (h / 10) ++ "." ++ Nat.repr (h % 10) := by
  apply String.ext
  rw [toFixed_data _ (ofQuotient_ten_small h hh), ofQuotient_ten_rounds_back h hh]
  simp only [String.data_append]
  rw [repr_data_lt (h % 10) (Nat.mod_lt h (by norm_num))]
  by_cases h10 : h < 10
  · rw [if_pos h10, Nat.div_eq_of_lt h10, Nat.mod_eq_of_lt h10]
    rfl
  · rw [if_neg h10]
    simp

/-! ## Navigation -/

theorem randomId_pos (r : Draw) : 1 ≤ randomId r := by
  unfold randomId
  omega

theorem randomId_le (r : Draw) (hr : r.valid) : randomId r ≤ 151 := by
  obtain ⟨hm, he, _⟩ := hr
  obtain ⟨c, hc⟩ : ∃ c, r.exp = 53 + c := ⟨r.exp - 53, by omega⟩
  have hb : (2 : Nat) ^ r.exp = 2 ^ 53 * 2 ^ c := by rw [hc, pow_add]
  have hcpos : 1 ≤ 2 ^ c := Nat.one_le_two_pow
  -- the product is below `2 ^ 8`, so at least 45 doublings bring it to 53 bits
  have hsmall : r.mant * 151 * 2 ^ 44 < 2 ^ 52 * 2 ^ r.exp := by
    rw [hb]
    have : 2 ^ 52 * (2 ^ 53 * 1) ≤ 2 ^ 52 * (2 ^ 53 * 2 ^ c) :=
      Nat.mul_le_mul_left _ (Nat.mul_le_mul_left _ hcpos)
    omega
  have hk := shiftUp_ge_of_small 44 1074 (r.mant * 151) (2 ^ r.exp) hsmall (by omega)
  unfold randomId Draw.mul totalPokemons F64.floor
  rw [roundToF64_of_shifted _ _ (by omega)]
  simp only
  generalize shiftUp 1074 (r.mant * 151) (2 ^ r.exp) = k at hk
  obtain ⟨i, rfl⟩ : ∃ i, k = 45 + i := ⟨k - 45, by omega⟩
  have hP : (2 : Nat) ^ (45 + i) = 2 ^ 45 * 2 ^ i := pow_add 2 45 i
  have hipos : 1 ≤ 2 ^ i := Nat.one_le_two_pow
  have hbpos : 0 < 2 ^ r.exp := Nat.two_pow_pos _
  have hrnd := (roundTiesToEven_bounds (r.mant * 151 * 2 ^ (45 + i)) (2 ^ r.exp) hbpos).1
  generalize roundTiesToEven (r.mant * 151 * 2 ^ (45 + i)) (2 ^ r.exp) = M at hrnd ⊢
  suffices h : M < 151 * 2 ^ (45 + i) by
    have := (Nat.div_lt_iff_lt_mul (Nat.two_pow_pos (45 + i))).2 h
    omega
  by_contra hcon
  have hM : 151 * 2 ^ (45 + i) ≤ M := by omega
  rw [hb, hP] at hrnd
  rw [hP] at hM
  generalize (2 : Nat) ^ c = C at hrnd hcpos
  generalize (2 : Nat) ^ i = I at hrnd hM hipos
  generalize r.mant = m at hrnd hm
  have hw : 151 * 2 ^ 98 * (C * I) ≤ 2 ^ 53 * C * M := by
    calc 151 * 2 ^ 98 * (C * I) = 2 ^ 53 * C * (151 * (2 ^ 45 * I)) := by ring
      _ ≤ 2 ^ 53 * C * M := Nat.mul_le_mul_left _ hM
  have hv : m * I ≤ 9007199254740991 * (C * I) := by
    calc m * I ≤ 9007199254740991 * I := Nat.mul_le_mul_right _ (by omega)
      _ = 9007199254740991 * (1 * I) := by ring
      _ ≤ 9007199254740991 * (C * I) :=
        Nat.mul_le_mul_left _ (Nat.mul_le_mul_right _ hcpos)
  have hC : C * 1 ≤ C * I := Nat.mul_le_mul_left _ hipos
  have e : m * 151 * (2 ^ 45 * I) = 151 * 2 ^ 45 * (m * I) := by ring
  rw [e] at hrnd
  generalize C * I = t at hw hv hC
  generalize m * I = v at hrnd hv
  generalize 2 ^ 53 * C * M = w at hrnd hw
  omega

set_option maxRecDepth 100000 in
/-- Every id `k` in `[1, 151]` is reached by the draw that is the multiple of `1 / 512` next
below `(2 k - 1) / 302`: its product with 151 lies strictly between `k - 1` and `k`. -/
theorem randomId_reaches (k : Nat) (h1 : 1 ≤ k) (h2 : k ≤ 151) :
    (Draw.mk ((2 * k - 1) * 256 / 151 * 2 ^ 44) 53).valid ∧
      randomId ⟨(2 * k - 1) * 256 / 151 * 2 ^ 44, 53⟩ = k := by
  interval_cases k <;> exact ⟨by decide, by decide⟩

theorem run_preserves_range (a : Action) (s : Nav) (ha : a.valid)
    (hs : 1 ≤ s.currentPokemonId ∧ s.currentPokemonId ≤ 151) :
    1 ≤ (a.run s).currentPokemonId ∧ (a.run s).currentPokemonId ≤ 151 := by
  cases a with
  | previous =>
    simp only [Action.run, previousPokemon]
    split_ifs <;> first | omega | (simp only; omega)
  | next =>
    simp only [Action.run, nextPokemon, totalPokemons]
    split_ifs <;> first | omega | (simp only; omega)
  | random r =>
    have h1 := randomId_pos r
    have h2 := randomId_le r ha
    simp only [Action.run, randomPokemon]
    omega

theorem runAll_preserves_range (actions : List Action) (s : Nav)
    (h : ∀ a ∈ actions, a.valid)
    (hs : 1 ≤ s.currentPokemonId ∧ s.currentPokemonId ≤ 151) :
    1 ≤ (runAll actions s).currentPokemonId ∧ (runAll actions s).currentPokemonId ≤ 151 := by
  induction actions generalizing s with
  | nil => simpa [runAll] using hs
  | cons a rest ih =>
    have ha := h a (List.mem_cons_self a rest)
    have hrest : ∀ b ∈ rest, b.valid := fun b hb => h b (List.mem_cons_of_mem a hb)
    exact ih (a.run s) hrest (run_preserves_range a s ha hs)

/-- C1. From the state the script starts in (`currentPokemonId = 1`, `totalPokemons = 151`),
after any finite sequence of clicks on the previous, next and random buttons, each random
click drawing a double `r` with `0 ≤ r < 1`, the current id lies in `[1, 151]`. -/
theorem navigation_invariant (actions : List Action) (h : ∀ a ∈ actions, a.valid) :
    1 ≤ (runAll actions Nav.initial).currentPokemonId ∧
      (runAll actions Nav.initial).currentPokemonId ≤ 151 :=
  runAll_preserves_range actions Nav.initial h (by decide)

theorem navigation_invariant_witness :
    (∀ a ∈ [Action.previous, .random ⟨2 ^ 53 - 1, 53⟩, .next, .previous, .previous],
        a.valid) ∧
      (runAll [Action.previous, .random ⟨2 ^ 53 - 1, 53⟩, .next, .previous, .previous]
        Nav.initial).currentPokemonId = 149 ∧
      1 ≤ (runAll [Action.previous, .random ⟨2 ^ 53 - 1, 53⟩, .next, .previous, .previous]
        Nav.initial).currentPokemonId ∧
      (runAll [Action.previous, .random ⟨2 ^ 53 - 1, 53⟩, .next, .previous, .previous]
        Nav.initial).currentPokemonId ≤ 151 :=
  ⟨by decide, by decide, navigation_invariant _ (by decide)⟩

/-- C2. `previousPokemon`: in every state with `currentPokemonId > 1` the new id is the old
one minus 1 and exactly one retrieval is started, for the new id; in every state with
`currentPokemonId = 1` the state is unchanged and no retrieval is started. -/
theorem previousPokemon_step (s : Nav) :
    (s.currentPokemonId > 1 →
      previousPokemon s
        = ⟨s.currentPokemonId - 1, s.requests ++ [s.currentPokemonId - 1]⟩) ∧
    (s.currentPokemonId = 1 → previousPokemon s = s) := by
  constructor
  · intro h
    simp [previousPokemon, h]
  · intro h
    simp [previousPokemon, h]

theorem previousPokemon_step_witness :
    previousPokemon ⟨5, [1, 2, 3, 4, 5]⟩ = ⟨4, [1, 2, 3, 4, 5, 4]⟩ ∧
      previousPokemon ⟨1, [1]⟩ = ⟨1, [1]⟩ :=
  ⟨(previousPokemon_step ⟨5, [1, 2, 3, 4, 5]⟩).1 (by decide),
    (previousPokemon_step ⟨1, [1]⟩).2 rfl⟩

/-- C3. `nextPokemon`: in every state with `currentPokemonId < 151` the new id is the old
one plus 1 and exactly one retrieval is started, for the new id; in every state with
`currentPokemonId = 151` the state is unchanged and no retrieval is started. -/
theorem nextPokemon_step (s : Nav) :
    (s.currentPokemonId < 151 →
      nextPokemon s = ⟨s.currentPokemonId + 1, s.requests ++ [s.currentPokemonId + 1]⟩) ∧
    (s.currentPokemonId = 151 → nextPokemon s = s) := by
  constructor
  · intro h
    simp [nextPokemon, totalPokemons, h]
  · intro h
    simp [nextPokemon, totalPokemons, h]

theorem nextPokemon_step_witness :
    nextPokemon ⟨150, [1, 150]⟩ = ⟨151, [1, 150, 151]⟩ ∧
      nextPokemon ⟨151, [1, 151]⟩ = ⟨151, [1, 151]⟩ :=
  ⟨(nextPokemon_step ⟨150, [1, 150]⟩).1 (by decide),
    (nextPokemon_step ⟨151, [1, 151]⟩).2 rfl⟩

/-- C7. `randomPokemon`: for every draw `r` with `0 ≤ r < 1` the id
`Math.floor(r * 151) + 1` lies in `[1, 151]`, `currentPokemonId` is set to it whatever it
was before, and one retrieval is started for that same id; and every `k` in `[1, 151]` is
produced by some draw. -/
theorem randomPokemon_range_exact :
    (∀ (r : Draw) (s : Nav), r.valid →
      1 ≤ randomId r ∧ randomId r ≤ 151 ∧
        randomPokemon r s = ⟨randomId r, s.requests ++ [(randomId r : Int)]⟩) ∧
    (∀ k : Nat, 1 ≤ k → k ≤ 151 →
      ∃ r : Draw, r.valid ∧ randomId r = k ∧
        ∀ s : Nav, (randomPokemon r s).currentPokemonId = k) := by
  constructor
  · intro r s hr
    exact ⟨randomId_pos r, randomId_le r hr, rfl⟩
  · intro k h1 h2
    obtain ⟨hv, hk⟩ := randomId_reaches k h1 h2
    exact ⟨_, hv, hk, fun s => congrArg Nat.cast hk⟩

theorem randomPokemon_range_exact_witness :
    (Draw.mk (2 ^ 53 - 1) 53).valid ∧ randomId ⟨2 ^ 53 - 1, 53⟩ = 151 ∧
      randomPokemon ⟨2 ^ 53 - 1, 53⟩ ⟨7, [1, 7]⟩ = ⟨151, [1, 7, 151]⟩ := by
  have h := (randomPokemon_range_exact.1 ⟨2 ^ 53 - 1, 53⟩ ⟨7, [1, 7]⟩ (by decide)).2.2
  exact ⟨by decide, by decide, by rw [h]; decide⟩

/-- C8. Away from the two ends (`1 < currentPokemonId < 151`), `previousPokemon` followed
at once by `nextPokemon` restores the current id, and so does `nextPokemon` followed at
once by `previousPokemon`. -/
theorem step_round_trip (s : Nav) (h1 : 1 < s.currentPokemonId)
    (h2 : s.currentPokemonId < 151) :
    (nextPokemon (previousPokemon s)).currentPokemonId = s.currentPokemonId ∧
      (previousPokemon (nextPokemon s)).currentPokemonId = s.currentPokemonId := by
  constructor
  · have hp : previousPokemon s
        = ⟨s.currentPokemonId - 1, s.requests ++ [s.currentPokemonId - 1]⟩ := by
      simp [previousPokemon, h1]
    rw [hp]
    have : s.currentPokemonId - 1 < 151 := by omega
    simp [nextPokemon, totalPokemons, this]
  · have hn : nextPokemon s
        = ⟨s.currentPokemonId + 1, s.requests ++ [s.currentPokemonId + 1]⟩ := by
      simp [nextPokemon, totalPokemons, h2]
    rw [hn]
    have : s.currentPokemonId + 1 > 1 := by omega
    simp [previousPokemon, this]

theorem step_round_trip_witness :
    (1 : Int) < 75 ∧ (75 : Int) < 151 ∧
      (nextPokemon (previousPokemon ⟨75, [1]⟩)).currentPokemonId = 75 ∧
      (previousPokemon (nextPokemon ⟨75, [1]⟩)).currentPokemonId = 75 :=
  ⟨by decide, by decide, step_round_trip ⟨75, [1]⟩ (by decide) (by decide)⟩

/-! ## Rendering -/

theorem displayPokemon_of_types (p : Pokemon) (page : Page) (ts : List String)
    (h : p.types = some ts) :
    displayPokemon p page = .normal
      { page with
        pokemonImageSrc :=
          "https://raw.githubusercontent.com/PokeAPI/sprites/master/sprites/pokemon/other/showdown/"
            ++ numberToString p.id ++ ".gif"
        pokemonImageOnError := some p.sprites
        pokemonImageAlt := p.name
        pokemonName := p.name
        pokemonType := ", ".intercalate ts
        pokemonHeight := toFixed (F64.ofQuotient p.height 10) 1 ++ " m"
        pokemonWeight := toFixed (F64.ofQuotient p.weight 10) 1 ++ " kg"
        pokemonId := "#" ++ padStart (numberToString p.id) 3 "0"
        pokemonPower :=
          match p.abilities with
          | some (mainAbility :: _) => replace mainAbility "-" " "
          | _ => "Desconocido" } := by
  unfold displayPokemon
  simp only [h]
  split <;> rfl

theorem flatten_replicate_singleton (n : Nat) (c : Char) :
    (List.replicate n [c]).flatten = List.replicate n c := by
  induction n with
  | zero => rfl
  | succ n ih => simp [List.replicate_succ, ih]

theorem padStart_zero (s : String) (w : Nat) :
    padStart s w "0" = ⟨List.replicate (w - s.length) '0'⟩ ++ s := by
  unfold padStart
  by_cases h : w ≤ s.length
  · rw [if_pos (Or.inl h), Nat.sub_eq_zero_of_le h]
    apply String.ext
    simp
  · rw [if_neg (by simp [h])]
    apply String.ext
    have : ("0" : String).data = ['0'] := rfl
    simp [this, flatten_replicate_singleton]

/-- C9, as amended.  For every record (with its category list) whose height `h` and
weight `w` are below `5629499534213120 = 10 * 2 ^ 49`, `displayPokemon` returns and sets
the height field to the numeral of `h / 10` with exactly one digit after the point and
`' m'` after it (the digits of `h div 10`, `'.'`, the digit `h mod 10`, `' m'`), and the
weight field likewise from `w` with `' kg'`; for `h = 7`, `w = 69` the texts are `'0.7 m'`
and `'6.9 kg'`. -/
theorem height_weight_text (p : Pokemon) (page : Page) (ts : List String)
    (ht : p.types = some ts) (hh : p.height < 5629499534213120)
    (hw : p.weight < 5629499534213120) :
    ∃ q, displayPokemon p page = .normal q ∧
      q.pokemonHeight
        = Nat.repr (p.height / 10) ++ "." ++ Nat.repr (p.height % 10) ++ " m" ∧
      q.pokemonWeight
        = Nat.repr (p.weight / 10) ++ "." ++ Nat.repr (p.weight % 10) ++ " kg" ∧
      (p.height = 7 → q.pokemonHeight = "0.7 m") ∧
      (p.weight = 69 → q.pokemonWeight = "6.9 kg") := by
  refine ⟨_, displayPokemon_of_types p page ts ht, ?_, ?_, ?_, ?_⟩
  · show toFixed (F64.ofQuotient p.height 10) 1 ++ " m" = _
    rw [toFixed_ofQuotient_ten p.height (by norm_num; exact hh)]
  · show toFixed (F64.ofQuotient p.weight 10) 1 ++ " kg" = _
    rw [toFixed_ofQuotient_ten p.weight (by norm_num; exact hw)]
  · intro h7
    show toFixed (F64.ofQuotient p.height 10) 1 ++ " m" = _
    rw [h7]
    decide
  · intro h69
    show toFixed (F64.ofQuotient p.weight 10) 1 ++ " kg" = _
    rw [h69]
    decide

theorem height_weight_text_witness :
    ∃ q, displayPokemon bulbasaur Page.empty = .normal q ∧
      q.pokemonHeight = "0.7 m" ∧ q.pokemonWeight = "6.9 kg" := by
  obtain ⟨q, hq, _, _, h7, h69⟩ :=
    height_weight_text bulbasaur Page.empty ["grass", "poison"] rfl (by decide) (by decide)
  exact ⟨q, hq, h7 rfl, h69 rfl⟩

/-- C9 as stated fails.  For the height `5629499534213122` (an integer a Number holds
exactly) the quotient `562949953421312.2` lies where doubles are `0.125` apart; the
nearest one is `562949953421312.25`, which `toFixed(1)` prints as `562949953421312.3`
(a tie between `.2` and `.3` goes to the larger), not with the digit `h mod 10 = 2`. -/
theorem height_text_counterexample :
    (displayPokemon { bulbasaur with height := 5629499534213122 } Page.empty).page.pokemonHeight
        = "562949953421312.3 m" ∧
      (displayPokemon { bulbasaur with height := 5629499534213122 } Page.empty).page.pokemonHeight
        ≠ Nat.repr (5629499534213122 / 10) ++ "." ++ Nat.repr (5629499534213122 % 10)
            ++ " m" := by
  decide

/-- C10, as amended.  For every record (with its category list) with positive id `n` below
`2 ^ 53 = 9007199254740992`, `displayPokemon` returns and sets the identifier field to `'#'`
followed by the decimal digits of `n` left-padded with `'0'` to a width of 3 (`1` gives
`'#001'`, `25` gives `'#025'`); the text has length `1 + max 3 (number of digits of n)`, it
ends with all the digits of `n` (nothing is cut, also for four digits and more), and the
characters after `'#'` read as a decimal number give `n` back. -/
theorem identifier_text (p : Pokemon) (page : Page) (ts : List String)
    (ht : p.types = some ts) (hn : 0 < p.id) (hb : p.id < 9007199254740992) :
    ∃ q, displayPokemon p page = .normal q ∧
      q.pokemonId
        = "#" ++ ⟨List.replicate (3 - (Nat.repr p.id).length) '0'⟩ ++ Nat.repr p.id ∧
      q.pokemonId.length = 1 + max 3 (Nat.digits 10 p.id).length ∧
      (Nat.repr p.id).data <:+ q.pokemonId.data ∧
      readDecimal (q.pokemonId.data.drop 1) = p.id ∧
      (p.id = 1 → q.pokemonId = "#001") ∧ (p.id = 25 → q.pokemonId = "#025") := by
  have key : "#" ++ padStart (numberToString p.id) 3 "0"
      = "#" ++ ⟨List.replicate (3 - (Nat.repr p.id).length) '0'⟩ ++ Nat.repr p.id := by
    rw [numberToString_of_lt p.id (by norm_num; exact hb), padStart_zero,
      String.append_assoc]
  refine ⟨_, displayPokemon_of_types p page ts ht, key, ?_, ?_, ?_, ?_, ?_⟩
  · show ("#" ++ padStart (numberToString p.id) 3 "0").length = _
    rw [key, ← repr_length p.id hn]
    simp only [String.length_append]
    have h1 : ("#" : String).length = 1 := rfl
    have h2 : (String.mk (List.replicate (3 - (Nat.repr p.id).length) '0')).length
        = 3 - (Nat.repr p.id).length := by
      show (List.replicate _ _).length = _
      simp
    rw [h1, h2]
    omega
  · show (Nat.repr p.id).data <:+ ("#" ++ padStart (numberToString p.id) 3 "0").data
    rw [key]
    simp only [String.data_append]
    exact List.suffix_append _ _
  · show readDecimal (("#" ++ padStart (numberToString p.id) 3 "0").data.drop 1) = p.id
    rw [key]
    have h1 : ("#" : String).data = ['#'] := rfl
    simp only [String.data_append, h1, List.append_assoc, List.singleton_append]
    show readDecimal (List.replicate _ '0' ++ (Nat.repr p.id).data) = p.id
    rw [readDecimal_zeros, readDecimal_repr]
  · intro h
    show "#" ++ padStart (numberToString p.id) 3 "0" = _
    rw [h]
    decide
  · intro h
    show "#" ++ padStart (numberToString p.id) 3 "0" = _
    rw [h]
    decide

theorem identifier_text_witness :
    ∃ q, displayPokemon { bulbasaur with id := 1234 } Page.empty = .normal q ∧
      q.pokemonId = "#1234" ∧ q.pokemonId.length = 5 ∧
      readDecimal (q.pokemonId.data.drop 1) = 1234 := by
  obtain ⟨q, hq, h1, h2, _, h4, _⟩ :=
    identifier_text { bulbasaur with id := 1234 } Page.empty ["grass", "poison"] rfl
      (by decide) (by decide)
  refine ⟨q, hq, ?_, ?_, h4⟩
  · rw [h1]
    decide
  · rw [h1]
    decide

/-- C10 as stated fails for ids beyond the integers a Number counts exactly.  The id
`18014398509481992 = 2 ^ 54 + 8` is a double; `toString` prints the shortest digits that
read back as that double, `18014398509481990`, so the identifier field is
`'#18014398509481990'`: not the digits of `n`, and read as a decimal number not `n`.  The
id `10 ^ 21` is a double too; `toString` prints it as `1e+21`, so the field is `'#1e+21'`,
of length 6 and not `1 + 22`. -/
theorem identifier_text_counterexample :
    (displayPokemon { bulbasaur with id := 18014398509481992 } Page.empty).page.pokemonId
        = "#18014398509481990" ∧
      readDecimal
          ((displayPokemon { bulbasaur with id := 18014398509481992 }
            Page.empty).page.pokemonId.data.drop 1)
        ≠ 18014398509481992 ∧
      ¬ (Nat.repr 18014398509481992).data <:+
          (displayPokemon { bulbasaur with id := 18014398509481992 }
            Page.empty).page.pokemonId.data ∧
      (displayPokemon { bulbasaur with id := 10 ^ 21 } Page.empty).page.pokemonId
        = "#1e+21" ∧
      (displayPokemon { bulbasaur with id := 10 ^ 21 } Page.empty).page.pokemonId.length
        ≠ 1 + max 3 (Nat.digits 10 (10 ^ 21)).length := by
  refine ⟨by decide, by decide, ?_, by decide, ?_⟩
  · have h : (displayPokemon { bulbasaur with id := 18014398509481992 }
        Page.empty).page.pokemonId = "#18014398509481990" := by decide
    rw [h]
    decide
  · have h : (displayPokemon { bulbasaur with id := 10 ^ 21 } Page.empty).page.pokemonId
        = "#1e+21" := by decide
    have hd : (Nat.digits 10 (10 ^ 21)).length = 22 := by norm_num
    rw [h, hd]
    decide

/-- C5 fails on the code: `replace('-', ' ')` replaces the first `'-'` only.  For a record
whose first ability is named `power-of-alchemy` the primary-trait field becomes
`power of-alchemy`, which still contains a `'-'`. -/
theorem primary_trait_keeps_later_separators :
    (displayPokemon { bulbasaur with abilities := some ["power-of-alchemy"] }
        Page.empty).page.pokemonPower = "power of-alchemy" ∧
      '-' ∈ (displayPokemon { bulbasaur with abilities := some ["power-of-alchemy"] }
        Page.empty).page.pokemonPower.data := by
  decide

/-- C6, as amended.  For every record (with its category list) whose ability sequence is
empty, `displayPokemon` returns and sets the primary-trait field to the fixed placeholder
`'Desconocido'`, which is not the empty string. -/
theorem empty_traits_placeholder (p : Pokemon) (page : Page) (ts : List String)
    (ht : p.types = some ts) (ha : p.abilities = some []) :
    ∃ q, displayPokemon p page = .normal q ∧
      q.pokemonPower = "Desconocido" ∧ q.pokemonPower ≠ "" := by
  refine ⟨_, displayPokemon_of_types p page ts ht, ?_, ?_⟩
  · simp only [ha]
  · simp only [ha]
    decide

theorem empty_traits_placeholder_witness :
    ∃ q, displayPokemon { bulbasaur with abilities := some [] } Page.empty = .normal q ∧
      q.pokemonPower = "Desconocido" ∧ q.pokemonPower ≠ "" :=
  empty_traits_placeholder { bulbasaur with abilities := some [] } Page.empty
    ["grass", "poison"] rfl rfl

/-- C6 as stated fails: for a record with an empty ability sequence the primary-trait
field is `'Desconocido'`, not `'Unknown'`. -/
theorem empty_traits_not_unknown :
    (displayPokemon { bulbasaur with abilities := some [] } Page.empty).page.pokemonPower
      ≠ "Unknown" := by
  decide

/-! ## The failure path of the retrieval -/

theorem fetchPokemon_of_thrown (fetch : String → FetchResult) (id : Int) (page : Page)
    (error : String) (written : Page)
    (h : fetchPokemonTry fetch id page = .thrown error written) :
    fetchPokemon fetch id page = .normal
      { written with
        console := written.console ++ ["Error al obtener el Pokémon: " ++ error]
        pokemonName := "Error al cargar" } := by
  unfold fetchPokemon
  rw [h]

theorem fetchPokemonTry_of_failed (fetch : String → FetchResult) (id : Int) (page : Page)
    (h : (fetch (apiBaseUrl ++ "/" ++ toString id)).failed = true) :
    ∃ error, fetchPokemonTry fetch id page = .thrown error page := by
  unfold fetchPokemonTry
  cases hf : fetch (apiBaseUrl ++ "/" ++ toString id) with
  | rejected reason => exact ⟨reason, rfl⟩
  | response status body =>
    rw [hf] at h
    by_cases hok : FetchResult.ok status = true
    · cases body with
      | unparsable => exact ⟨"SyntaxError", by simp [hok]⟩
      | json data => simp [FetchResult.failed, hok] at h
    · exact ⟨"Error: " ++ Nat.repr status, by simp [hok]⟩

/-- C4, as amended.  For every id and every prior page `fetchPokemon` returns to its caller
(it never throws).  When the retrieval fails before rendering starts (no network, a
non-success status such as for id 999, or a body that is not JSON) it sets the name field
to `'Error al cargar'` and leaves the image (source, alternative text, error handler),
category, height, weight, identifier and primary-trait fields as they were.  Whenever the
`try` block throws, the name field ends as `'Error al cargar'`. -/
theorem fetchPokemon_failure_path :
    (∀ (fetch : String → FetchResult) (id : Int) (page : Page),
      ∃ q, fetchPokemon fetch id page = .normal q) ∧
    (∀ (fetch : String → FetchResult) (id : Int) (page : Page),
      (fetch (apiBaseUrl ++ "/" ++ toString id)).failed = true →
      ∃ q, fetchPokemon fetch id page = .normal q ∧
        q.pokemonName = "Error al cargar" ∧
        q.pokemonImageSrc = page.pokemonImageSrc ∧
        q.pokemonImageAlt = page.pokemonImageAlt ∧
        q.pokemonImageOnError = page.pokemonImageOnError ∧
        q.pokemonType = page.pokemonType ∧
        q.pokemonHeight = page.pokemonHeight ∧
        q.pokemonWeight = page.pokemonWeight ∧
        q.pokemonId = page.pokemonId ∧
        q.pokemonPower = page.pokemonPower) ∧
    (∀ (fetch : String → FetchResult) (id : Int) (page : Page) (error : String)
      (written : Page), fetchPokemonTry fetch id page = .thrown error written →
      ∃ q, fetchPokemon fetch id page = .normal q ∧ q.pokemonName = "Error al cargar") := by
  refine ⟨?_, ?_, ?_⟩
  · intro fetch id page
    cases h : fetchPokemonTry fetch id page with
    | normal q => exact ⟨q, by unfold fetchPokemon; rw [h]⟩
    | thrown error written => exact ⟨_, fetchPokemon_of_thrown fetch id page error written h⟩
  · intro fetch id page hfail
    obtain ⟨error, h⟩ := fetchPokemonTry_of_failed fetch id page hfail
    exact ⟨_, fetchPokemon_of_thrown fetch id page error page h,
      rfl, rfl, rfl, rfl, rfl, rfl, rfl, rfl, rfl⟩
  · intro fetch id page error written h
    exact ⟨_, fetchPokemon_of_thrown fetch id page error written h, rfl⟩

theorem fetchPokemon_failure_path_witness :
    ∃ q, fetchPokemon (fun _ => .response 404 .unparsable) 999
          (displayPokemon bulbasaur Page.empty).page = .normal q ∧
      q.pokemonName = "Error al cargar" ∧
      q.pokemonImageSrc
        = "https://raw.githubusercontent.com/PokeAPI/sprites/master/sprites/pokemon/other/showdown/1.gif" ∧
      q.pokemonType = "grass, poison" ∧ q.pokemonHeight = "0.7 m" ∧
      q.pokemonWeight = "6.9 kg" ∧ q.pokemonId = "#001" ∧ q.pokemonPower = "overgrow" := by
  obtain ⟨q, hq, hname, hsrc, _, _, htype, hheight, hweight, hid, hpower⟩ :=
    fetchPokemon_failure_path.2.1 (fun _ => .response 404 .unparsable) 999
      (displayPokemon bulbasaur Page.empty).page (by decide)
  refine ⟨q, hq, hname, ?_, ?_, ?_, ?_, ?_, ?_⟩
  · rw [hsrc]; decide
  · rw [htype]; decide
  · rw [hheight]; decide
  · rw [hweight]; decide
  · rw [hid]; decide
  · rw [hpower]; decide

/-- C4 as stated fails for a body that parses but is not a record.  With status 200 and a
body without the `types` array, `displayPokemon` has written the image source, the
alternative text and the name when `pokemon.types.map` throws (line 150); the `catch`
block then sets the name to `'Error al cargar'`, and the image source is no longer the
prior one. -/
theorem fetchPokemon_partial_render :
    (fetchPokemon
        (fun _ => .response 200
          (.json { bulbasaur with id := 999, name := "missingno", types := none }))
        999 (displayPokemon bulbasaur Page.empty).page).page.pokemonName
      = "Error al cargar" ∧
    (fetchPokemon
        (fun _ => .response 200
          (.json { bulbasaur with id := 999, name := "missingno", types := none }))
        999 (displayPokemon bulbasaur Page.empty).page).page.pokemonImageSrc
      = "https://raw.githubusercontent.com/PokeAPI/sprites/master/sprites/pokemon/other/showdown/999.gif" ∧
    (fetchPokemon
        (fun _ => .response 200
          (.json { bulbasaur with id := 999, name := "missingno", types := none }))
        999 (displayPokemon bulbasaur Page.empty).page).page.pokemonImageSrc
      ≠ (displayPokemon bulbasaur Page.empty).page.pokemonImageSrc := by
  decide

end Pokedex
